import Mathlib

/-!
Verification of the FPGA automation pipeline repository against its
natural-language specification.

The development shallowly embeds the Python sources:
* `src/sim/golden/fir_model.py`  — Q1.15 moving-average golden model,
* `src/common/resources.py`      — file-based resource lock,
* `src/common/config.py`         — YAML configuration loader/validator,
* `src/scripts/mk_phase1_report.py`      — Phase-1 report generator,
* `src/scripts/convert_variants_schema.py` — variant schema converter,
* `src/orchestrator/crew.py`     — phase-1 pipeline orchestrator,
* `src/agents/synth.py`          — synthesis agent CSV aggregation.

Machine integers are modelled as `Int` with explicit wrapping where the
source wraps; Python's arithmetic right shift on `int` is floor division
by a power of two (`Int.fdiv`).
-/

namespace FPGA

/-! ## Golden reference model (`src/sim/golden/fir_model.py`) -/

def Q15_MAX : Int := 32767

def Q15_MIN : Int := -32768

/-- `_ALLOWED_TAPS = {4, 8, 16, 32}`. -/
def ALLOWED_TAPS : List Nat := [4, 8, 16, 32]

/-- Python's `>>` on unbounded `int` is an arithmetic shift, i.e. floor
division by `2 ^ s`. -/
def pyShr (v : Int) (s : Nat) : Int := Int.fdiv v (2 ^ s)

/-- `q15_wrap`: `v &= 0xFFFF; if v & 0x8000: v -= 0x10000`.  Python's
`v & 0xFFFF` on a (possibly negative) `int` equals `v mod 65536`
(non-negative), and bit 15 is set exactly when that residue is `≥ 32768`. -/
def q15_wrap (v : Int) : Int :=
  let m := v.emod 65536
  if 32768 ≤ m then m - 65536 else m

/-- `q15_saturate`: clamp to `[-32768, 32767]`. -/
def q15_saturate (v : Int) : Int :=
  if v > Q15_MAX then Q15_MAX
  else if v < Q15_MIN then Q15_MIN
  else v

/-- `_arith_shift_round(value, shift, do_round)`: arithmetic right shift
with optional symmetric rounding (`shift` is a `Nat`, so the source's
`shift <= 0` guard is `shift = 0`). -/
def arith_shift_round (value : Int) (shift : Nat) (do_round : Bool) : Int :=
  if shift = 0 then value
  else if do_round then
    let half : Int := 2 ^ (shift - 1)
    let bias : Int := if 0 ≤ value then half else -half
    pyShr (value + bias) shift
  else pyShr value shift

/-- Post-processing applied to the shifted average:
`q15_saturate(y) if do_sat else q15_wrap(y)`. -/
def firPost (do_sat : Bool) (y : Int) : Int :=
  if do_sat then q15_saturate y else q15_wrap y

/-- One iteration of the window update in `fir_mavg_q15`:
wrap the incoming sample, `window.insert(0, x)`, then
`window.pop()` when the window exceeds `taps` entries. -/
def firWindowStep (taps : Nat) (w : List Int) (x : Int) : List Int :=
  let w1 := q15_wrap x :: w
  if taps < w1.length then w1.dropLast else w1

/-- The per-sample loop body of `fir_mavg_q15`, recursing over the input
with the sliding window `w` as explicit state (`SHIFT = log2 taps`). -/
def firGo (taps SHIFT : Nat) (do_round do_sat : Bool) :
    List Int → List Int → List Int × List Bool
  | _, [] => ([], [])
  | w, x :: rest =>
    let w2 := firWindowStep taps w x
    let out :=
      if w2.length < taps then ((0 : Int), false)
      else
        let s := w2.sum
        let avg := arith_shift_round s SHIFT do_round
        (firPost do_sat avg, true)
    let tail := firGo taps SHIFT do_round do_sat w2 rest
    (out.1 :: tail.1, out.2 :: tail.2)

/-- Same loop but emitting the pre-clamp shifted average (`avg` before
saturation/wrapping); used to state the saturation/wrap law. -/
def firRawGo (taps SHIFT : Nat) (do_round : Bool) :
    List Int → List Int → List Int × List Bool
  | _, [] => ([], [])
  | w, x :: rest =>
    let w2 := firWindowStep taps w x
    let out :=
      if w2.length < taps then ((0 : Int), false)
      else ((arith_shift_round w2.sum SHIFT do_round), true)
    let tail := firRawGo taps SHIFT do_round w2 rest
    (out.1 :: tail.1, out.2 :: tail.2)

/-- The sliding window after processing a list of samples (the loop state
of `fir_mavg_q15` at the corresponding point). -/
def firWin (taps : Nat) : List Int → List Int → List Int
  | w, [] => w
  | w, x :: rest => firWin taps (firWindowStep taps w x) rest

/-- Python `int.bit_length()` on naturals, by repeated halving (the
argument also serves as structural fuel, so the function evaluates by
kernel reduction; `n` halvings always suffice). -/
def bit_lengthAux : Nat → Nat → Nat
  | 0, _ => 0
  | fuel + 1, n => if n = 0 then 0 else bit_lengthAux fuel (n / 2) + 1

/-- `taps.bit_length()`. -/
def bit_length (n : Nat) : Nat := bit_lengthAux n n

/-- `fir_mavg_q15(samples, taps, do_round, do_sat)`.  The source raises
`ValueError` unless `taps ∈ {4,8,16,32}` (the subsequent power-of-two
check can then never fire); the fallible call is modelled with `Option`.
`SHIFT = taps.bit_length() - 1`. -/
def fir_mavg_q15 (samples : List Int) (taps : Nat)
    (do_round do_sat : Bool) : Option (List Int × List Bool) :=
  if taps ∈ ALLOWED_TAPS then
    some (firGo taps (bit_length taps - 1) do_round do_sat [] samples)
  else none

/-- Nearest integer to `a / b` with the convention used by the spec's
"round(32767/taps)" (ties cannot occur for the allowed taps). -/
def roundDiv (a b : Nat) : Nat := (2 * a + b) / (2 * b)

/-! ## Pipeline orchestrator (`src/orchestrator/crew.py`, `run_phase1`) -/

/-- One agent invocation performed by the orchestrator (each is a separate
subprocess launched through the agent's CLI). -/
inductive Stage
  | designer
  | sim (variant : String)
  | synth (variant : String)
  | board (variant : String)
  | analysis
deriving DecidableEq, Repr

/-- Return codes of the stage helpers (`run_designer`, `run_sim`,
`run_synth`, `run_board`, `run_analysis`), abstracted as functions of the
variant name: each helper returns the subprocess return code. -/
structure StageRcs where
  designerRc : Int
  simRc : String → Int
  synthRc : String → Int
  boardRc : String → Int
  analysisRc : Int

/-- The agent invocations issued by one iteration of `run_phase1`'s
per-variant loop: sim always; synth only when sim returned 0; board only
when synth also returned 0 and `args.with_hardware` is set
(a board failure is logged but never aborts). -/
def variantStages (rcs : StageRcs) (withHardware : Bool) (name : String) :
    List Stage :=
  if rcs.simRc name ≠ 0 then [Stage.sim name]
  else if rcs.synthRc name ≠ 0 then [Stage.sim name, Stage.synth name]
  else if withHardware then [Stage.sim name, Stage.synth name, Stage.board name]
  else [Stage.sim name, Stage.synth name]

/-- `run_phase1(args, variants)`: designer preflight (result discarded),
the per-variant gated loop, then the analysis agent exactly once; the
return value is the analysis return code. The first component is the
ordered trace of agent invocations. -/
def run_phase1 (rcs : StageRcs) (withHardware : Bool)
    (variants : List String) : List Stage × Int :=
  (Stage.designer :: variants.flatMap (variantStages rcs withHardware)
      ++ [Stage.analysis],
   rcs.analysisRc)

/-! ## Synthesis agent aggregation (`src/agents/synth.py`) -/

/-- The fixed 17-column header written by `aggregate_summaries`. -/
def aggregateHeader : List String :=
  ["variant", "TAPS", "PIPELINE", "ROUND", "SAT",
   "FMAX_nextpnr_MHz", "FMAX_icetime_MHz", "Slack_ns_12MHz", "Meets_12MHz",
   "LUT4", "LUT4_pct", "DFF", "DFF_pct", "BRAM_4K", "BRAM_pct",
   "DSP_MAC16", "DSP_pct"]

/-- `aggregate_summaries(variant_names)`: writes the header, then for each
name the data rows (all rows after the header row) of
`build/<name>/summary.csv`; a missing summary file is logged as a warning
and skipped. `summaries` maps a variant name to the parsed CSV rows of its
summary file (`none` when the file does not exist). -/
def aggregate_summaries (summaries : String → Option (List (List String)))
    (variant_names : List String) : List (List String) :=
  aggregateHeader ::
    variant_names.flatMap fun name =>
      match summaries name with
      | none => []
      | some rows => rows.drop 1

/-- The fail-fast build loop of `agents.synth.main`: build each selected
variant in order; the first failure calls `sys.exit(1)` (modelled as
`none`), otherwise the list of built names is returned. `buildOk` tells
whether `build_variant` succeeds for a given name. -/
def synthBuildAll (buildOk : String → Bool) : List String → Option (List String)
  | [] => some []
  | v :: rest =>
    if buildOk v then (synthBuildAll buildOk rest).map (v :: ·) else none

/-- Outcome of one `agents.synth` CLI invocation: the exit code and the
aggregate CSV content if `aggregate_summaries` ran (`none` when the
process exited before aggregation). -/
structure SynthOutcome where
  exitCode : Int
  aggregate : Option (List (List String))
deriving DecidableEq, Repr

/-- `agents.synth.main` after successful config loading/filtering: run the
fail-fast build loop over the selected variants, then aggregate the
summaries of the built variants. -/
def synth_main (buildOk : String → Bool)
    (summaries : String → Option (List (List String)))
    (selected : List String) : SynthOutcome :=
  match synthBuildAll buildOk selected with
  | none => ⟨1, none⟩
  | some built => ⟨0, some (aggregate_summaries summaries built)⟩

/-! ## Resource lock (`src/common/resources.py`, `FileLock`) -/

/-- The lock marker file, when present: the `pid` its JSON payload
records and its age in seconds (now minus the file's mtime), which the
TTL staleness check compares against. -/
structure MarkerFile where
  pid : Int
  age : Int
deriving DecidableEq, Repr

/-- The in-process state of one `FileLock` handle: the owning process id
(`self._pid`), the `reentrant` flag, the TTL, and the `_owned` flag. -/
structure FileLockSt where
  pid : Int
  reentrant : Bool
  ttl : Int
  owned : Bool
deriving DecidableEq, Repr

/-- What one iteration of `FileLock.acquire`'s while-loop does before any
sleeping: succeed, remove a stale lock and retry immediately, or fall
through to the poll-interval sleep (and timeout check). -/
inductive AcqOutcome
  | acquired
  | staleRemovedRetry
  | waitPoll
deriving DecidableEq, Repr

/-- One iteration of `FileLock.acquire`: `_try_create` (atomic
create-exclusive, succeeding exactly when no marker file exists); on
contention, the reentrancy check (`self.reentrant and
self._is_owned_by_me()`), then the staleness check (`age > ttl` removes
the file and retries immediately); otherwise the caller sleeps and
retries. -/
def acquireStep (l : FileLockSt) (fs : Option MarkerFile) :
    FileLockSt × Option MarkerFile × AcqOutcome :=
  match fs with
  | none =>
    ({ l with owned := true }, some { pid := l.pid, age := 0 },
     AcqOutcome.acquired)
  | some m =>
    if l.reentrant ∧ m.pid = l.pid then
      ({ l with owned := true }, some m, AcqOutcome.acquired)
    else if l.ttl < m.age then
      (l, none, AcqOutcome.staleRemovedRetry)
    else
      (l, some m, AcqOutcome.waitPoll)

/-- Iterated acquisition: the lock/file state after `n` further
successful-or-not acquire iterations (used to express "any number of
acquires by the owning process"). -/
def acquireIter (n : Nat) (l : FileLockSt) (fs : Option MarkerFile) :
    FileLockSt × Option MarkerFile :=
  match n with
  | 0 => (l, fs)
  | n + 1 =>
    let s := acquireStep l fs
    acquireIter n s.1 s.2.1

/-- `FileLock.release`: a no-op when `_owned` is false; otherwise the
marker file is unlinked only when `_is_owned_by_me()` still holds (the
file exists and records the caller's pid; a vanished file is tolerated),
and `_owned` is cleared. -/
def lockRelease (l : FileLockSt) (fs : Option MarkerFile) :
    FileLockSt × Option MarkerFile :=
  if l.owned then
    let fs' :=
      match fs with
      | some m => if m.pid = l.pid then none else some m
      | none => none
    ({ l with owned := false }, fs')
  else (l, fs)

/-! ## YAML document values (shared by the configuration loader and the
schema converter) -/

/-- Values of a parsed YAML document (`yaml.safe_load` output): null,
booleans, integers, strings, lists and mappings. Mappings are ordered
key/value lists with unique keys, matching Python dict semantics. -/
inductive YVal
  | ynull
  | ybool (b : Bool)
  | yint (n : Int)
  | ystr (s : String)
  | ylist (xs : List YVal)
  | ymap (kvs : List (String × YVal))
deriving BEq, Repr

/-- Python dict key lookup over the ordered key/value list. -/
def ylookup (k : String) : List (String × YVal) → Option YVal
  | [] => none
  | (k', v) :: rest => if k' = k then some v else ylookup k rest

/-- Python `key in dict`. -/
def yhasKey (kvs : List (String × YVal)) (k : String) : Bool :=
  (ylookup k kvs).isSome

/-- Python `isinstance(x, int)` — true for `bool` as well, since Python's
`bool` is a subclass of `int`. -/
def pyIsInt : YVal → Bool
  | YVal.yint _ => true
  | YVal.ybool _ => true
  | _ => false

/-- Python `isinstance(x, str)`. -/
def pyIsStr : YVal → Bool
  | YVal.ystr _ => true
  | _ => false

/-- Python type name, as interpolated into error messages. -/
def pyTypeName : YVal → String
  | YVal.ynull => "NoneType"
  | YVal.ybool _ => "bool"
  | YVal.yint _ => "int"
  | YVal.ystr _ => "str"
  | YVal.ylist _ => "list"
  | YVal.ymap _ => "dict"

/-- Python `str.strip()`: remove leading and trailing whitespace
(modelled over the character list so it evaluates by kernel reduction). -/
def pyStrip (s : String) : String :=
  ⟨((s.data.dropWhile Char.isWhitespace).reverse.dropWhile
      Char.isWhitespace).reverse⟩

/-! ## Configuration loader (`src/common/config.py`) -/

/-- Result of `load_config(path)`: the three failure kinds
(`FileNotFoundError`, a re-raised `yaml.YAMLError`, `ConfigError` with its
message) or the validated `Config` holding the variant list. -/
inductive LoadResult
  | notFound
  | parseError
  | configError (msg : String)
  | ok (variants : List YVal)
deriving BEq, Repr

/-- `_validate_variant(idx, v)`: `none` when the entry passes, otherwise
the `ConfigError` message. Checks, in source order: the entry is a
mapping; `name` is a present, non-empty (after `strip()`) string; `taps`
is a present integer; the optional keys are type-checked only if
present. -/
def validate_variant (idx : Nat) (v : YVal) : Option String :=
  match v with
  | YVal.ymap kvs =>
    let nameOk :=
      match ylookup "name" kvs with
      | some (YVal.ystr s) => pyStrip s ≠ ""
      | _ => false
    if !nameOk then some s!"variants[{idx}].name must be a non-empty string"
    else if !(match ylookup "taps" kvs with
               | some t => pyIsInt t
               | none => false) then
      some s!"variants[{idx}].taps must be an integer"
    else if (match ylookup "pipeline" kvs with
             | some t => !pyIsInt t
             | none => false) then
      some s!"variants[{idx}].pipeline must be int or bool when present"
    else if (match ylookup "round" kvs with
             | some t => !pyIsStr t
             | none => false) then
      some s!"variants[{idx}].round must be a string when present"
    else if (match ylookup "sat" kvs with
             | some t => !pyIsStr t
             | none => false) then
      some s!"variants[{idx}].sat must be a string when present"
    else if (match ylookup "seed" kvs with
             | some t => !pyIsInt t
             | none => false) then
      some s!"variants[{idx}].seed must be an integer when present"
    else if (match ylookup "yosys_opts" kvs with
             | some t => !pyIsStr t
             | none => false) then
      some s!"variants[{idx}].yosys_opts must be a string when present"
    else if (match ylookup "nextpnr_opts" kvs with
             | some t => !pyIsStr t
             | none => false) then
      some s!"variants[{idx}].nextpnr_opts must be a string when present"
    else if (match ylookup "freq" kvs with
             | some t => !pyIsInt t
             | none => false) then
      some s!"variants[{idx}].freq must be an integer when present"
    else none
  | _ => some s!"variants[{idx}] must be a mapping, got {pyTypeName v}"

/-- The `for i, v in enumerate(variants)` loop of `_validate`, starting at
index `i`: the first failing entry's message, or `none`. -/
def validateVariants (i : Nat) : List YVal → Option String
  | [] => none
  | v :: rest =>
    match validate_variant i v with
    | some msg => some msg
    | none => validateVariants (i + 1) rest

/-- `_validate(data)` on a parsed top-level mapping: requires the
`variants` key, requires its value to be a list, validates each entry,
and returns `Config(variants=variants)`. -/
def validateConfig (doc : List (String × YVal)) : LoadResult :=
  match ylookup "variants" doc with
  | none => LoadResult.configError "Missing top-level \"variants\" key"
  | some (YVal.ylist vs) =>
    match validateVariants 0 vs with
    | some msg => LoadResult.configError msg
    | none => LoadResult.ok vs
  | some _ => LoadResult.configError "\"variants\" must be a list"

/-- The file-reading/parsing boundary of `load_config`: the path is
missing, `yaml.safe_load` raises a `yaml.YAMLError`, or a document is
parsed. A parsed top-level mapping is modelled (an empty document becomes
the empty mapping via `or {}`); claims exercise no non-mapping
top-level. -/
inductive ReadOutcome
  | missing
  | yamlError
  | parsed (doc : List (String × YVal))

/-- `load_config(path)`: missing file raises `FileNotFoundError`; a YAML
syntax error is re-raised (surfaced, not swallowed); otherwise the parsed
document is validated. -/
def load_config : ReadOutcome → LoadResult
  | ReadOutcome.missing => LoadResult.notFound
  | ReadOutcome.yamlError => LoadResult.parseError
  | ReadOutcome.parsed doc => validateConfig doc

/-! ## Phase-1 report generator (`src/scripts/mk_phase1_report.py`) -/

def LUT4_TOTAL : Int := 5280

def DFF_TOTAL : Int := 5280

def BRAM_4K_TOTAL : Int := 30

def DSP_MAC16_TOTAL : Int := 8

/-- One aggregate-CSV row as consumed by `sanity_check_resources`: the
variant name and the outcome of `int(float(row[field]))` for the four
utilization fields (`none` when the numeric-text conversion raises, the
boundary with Python float parsing). -/
structure SummaryRow where
  variant : String
  lut4 : Option Int
  dff : Option Int
  bram4k : Option Int
  dsp : Option Int

/-- The `try` block around the four conversions: all four fields parse, or
the row is skipped with a warning. -/
def rowResources (r : SummaryRow) : Option (Int × Int × Int × Int) :=
  match r.lut4, r.dff, r.bram4k, r.dsp with
  | some a, some b, some c, some d => some (a, b, c, d)
  | _, _, _, _ => none

/-- One `log.error` emitted by `sanity_check_resources` for a resource
kind exceeding its device total. -/
inductive Violation
  | lut (variant : String) (n : Int)
  | dff (variant : String) (n : Int)
  | bram (variant : String) (n : Int)
  | dsp (variant : String) (n : Int)
deriving DecidableEq, Repr

/-- The violations logged for one row of `sanity_check_resources`'s loop
(an unparseable row logs a warning and contributes none). -/
def rowViolations (r : SummaryRow) : List Violation :=
  match rowResources r with
  | none => []
  | some (lut, dff, bram, dsp) =>
    (if LUT4_TOTAL < lut then [Violation.lut r.variant lut] else []) ++
    (if DFF_TOTAL < dff then [Violation.dff r.variant dff] else []) ++
    (if BRAM_4K_TOTAL < bram then [Violation.bram r.variant bram] else []) ++
    (if DSP_MAC16_TOTAL < dsp then [Violation.dsp r.variant dsp] else [])

/-- `sanity_check_resources(rows)`: every violation of every row is
logged; the check passes iff none was found (`ok` stays true). -/
def sanity_check_resources (rows : List SummaryRow) : List Violation × Bool :=
  let vs := rows.flatMap rowViolations
  (vs, vs.isEmpty)

/-- Outcome of one `mk_phase1_report` invocation: the exit code and
whether the Markdown report file was written. -/
structure ReportOutcome where
  exitCode : Int
  reportWritten : Bool
deriving DecidableEq, Repr

/-- `mk_phase1_report.main`: a missing summary CSV exits 2; a failing
resource sanity check exits 3 via `sys.exit(3)` inside
`sanity_check_resources`, before `render_report` or the output write run;
otherwise the report is rendered and written. `summaryRows` is `none`
when the summary CSV file does not exist. -/
def mk_phase1_report_main (summaryRows : Option (List SummaryRow)) :
    ReportOutcome :=
  match summaryRows with
  | none => ⟨2, false⟩
  | some rows =>
    if (sanity_check_resources rows).2 then ⟨0, true⟩ else ⟨3, false⟩

/-! ## Variant schema converter (`src/scripts/convert_variants_schema.py`) -/

/-- `_is_nested_variant(v)`: a mapping whose `params` key holds a
mapping. -/
def is_nested_variant : YVal → Bool
  | YVal.ymap kvs =>
    match ylookup "params" kvs with
    | some (YVal.ymap _) => true
    | _ => false
  | _ => false

/-- `_is_flat_variant(v)`: a mapping with `taps` and `pipeline` keys and a
`round` or `sat` key. -/
def is_flat_variant : YVal → Bool
  | YVal.ymap kvs =>
    yhasKey kvs "taps" && yhasKey kvs "pipeline" &&
      (yhasKey kvs "round" || yhasKey kvs "sat")
  | _ => false

/-- Python truthiness test for `None` (`v[opt_key] is not None`). -/
def isNull : YVal → Bool
  | YVal.ynull => true
  | _ => false

/-- Python `int(x)` as applied to the nested `params` values: integers
pass through, booleans coerce to 0/1, strings parse as integer literals
(`int` of a non-numeric value raises, modelled as `none`; floats do not
occur in parsed YAML params in any claim and are not modelled). -/
def pyInt : YVal → Option Int
  | YVal.yint n => some n
  | YVal.ybool b => some (if b then 1 else 0)
  | YVal.ystr s => s.trim.toInt?
  | _ => none

/-- `_round_int_to_str(val)`: rejects values outside `{0, 1}`. -/
def round_int_to_str (val : Int) : Except String String :=
  if val ≠ 0 ∧ val ≠ 1 then Except.error "ROUND must be 0 or 1"
  else Except.ok (if val = 1 then "round" else "truncate")

/-- `_sat_int_to_str(val)`: rejects values outside `{0, 1}`. -/
def sat_int_to_str (val : Int) : Except String String :=
  if val ≠ 0 ∧ val ≠ 1 then Except.error "SAT must be 0 or 1"
  else Except.ok (if val = 1 then "saturate" else "wrap")

/-- The loop body of `convert_nested_to_flat` for `variants[idx]`:
require the nested shape and a non-empty string name; coerce
`TAPS`/`PIPELINE`/`ROUND`/`SAT` through `int()` (a missing key raises
`KeyError`, caught by the same `except`); map the flags; then append the
optional passthrough keys verbatim when present and not `None`. -/
def convertEntry (idx : Nat) (v : YVal) : Except String YVal :=
  if ¬ is_nested_variant v then
    Except.error s!"variants[{idx}] not in nested schema (missing params)"
  else
    match v with
    | YVal.ymap kvs =>
      let name :=
        match ylookup "name" kvs with
        | some (YVal.ystr s) => if pyStrip s ≠ "" then some s else none
        | _ => none
      match name with
      | none => Except.error s!"variants[{idx}].name must be a non-empty string"
      | some nm =>
        match ylookup "params" kvs with
        | some (YVal.ymap p) =>
          match (ylookup "TAPS" p).bind pyInt, (ylookup "PIPELINE" p).bind pyInt,
                (ylookup "ROUND" p).bind pyInt, (ylookup "SAT" p).bind pyInt with
          | some taps, some pipeline, some round_i, some sat_i => do
            let rs ← round_int_to_str round_i
            let ss ← sat_int_to_str sat_i
            let base : List (String × YVal) :=
              [("name", YVal.ystr (pyStrip nm)),
               ("taps", YVal.yint taps),
               ("pipeline", YVal.yint (if pipeline ≠ 0 then 1 else 0)),
               ("round", YVal.ystr rs),
               ("sat", YVal.ystr ss)]
            let extras :=
              ["yosys_opts", "nextpnr_opts", "seed", "freq"].flatMap fun k =>
                match ylookup k kvs with
                | some x => if isNull x then [] else [(k, x)]
                | none => []
            Except.ok (YVal.ymap (base ++ extras))
          | _, _, _, _ =>
            Except.error s!"variants[{idx}] {nm} params type error"
        | _ => Except.error s!"variants[{idx}] not in nested schema (missing params)"
    | _ => Except.error s!"variants[{idx}] not in nested schema (missing params)"

/-- The enumerate loop of `convert_nested_to_flat`, starting at `idx`. -/
def convertEntries (idx : Nat) : List YVal → Except String (List YVal)
  | [] => Except.ok []
  | v :: rest => do
    let f ← convertEntry idx v
    let fs ← convertEntries (idx + 1) rest
    Except.ok (f :: fs)

/-- `convert_nested_to_flat(data)`: requires a top-level `variants` list
and converts each entry, preserving entry order. -/
def convert_nested_to_flat (doc : List (String × YVal)) :
    Except String (List (String × YVal)) :=
  match ylookup "variants" doc with
  | some (YVal.ylist vs) =>
    (convertEntries 0 vs).map fun fs => [("variants", YVal.ylist fs)]
  | _ => Except.error "Missing top-level \"variants\" list"

/-- The schema-classification and conversion core of
`convert_variants_schema.main`, for an already-parsed top-level mapping:
the exit code and the converted document when one is written (an all-flat
document is a no-op, exit 0 with nothing written; a mixed document or a
conversion `ValueError` exits 3). -/
def convert_main (doc : List (String × YVal)) :
    Int × Option (List (String × YVal)) :=
  match ylookup "variants" doc with
  | some (YVal.ylist vs) =>
    let has_nested := vs.any is_nested_variant
    let has_flat := vs.any is_flat_variant
    if has_nested && has_flat then (3, none)
    else if has_flat && !has_nested then (0, none)
    else
      match convert_nested_to_flat doc with
      | Except.ok flat => (0, some flat)
      | Except.error _ => (3, none)
  | _ => (3, none)

/-- An optional key/value pair, used to state the converter claims: the
entry when the key is present, nothing when absent. -/
def optKV (k : String) : Option YVal → List (String × YVal)
  | none => []
  | some x => [(k, x)]

/-- A legacy nested-schema entry
`{name, params: {TAPS, PIPELINE, ROUND, SAT}}` with the four optional
passthrough keys, as the converter claims describe it. -/
def nestedEntry (nm : String) (t p r s : Int)
    (yo np sd fq : Option YVal) : YVal :=
  YVal.ymap
    ([("name", YVal.ystr nm),
      ("params", YVal.ymap
        [("TAPS", YVal.yint t), ("PIPELINE", YVal.yint p),
         ("ROUND", YVal.yint r), ("SAT", YVal.yint s)])] ++
     optKV "yosys_opts" yo ++ optKV "nextpnr_opts" np ++
     optKV "seed" sd ++ optKV "freq" fq)

/-! ## Theorems -/

theorem analysis_not_in_variantStages (rcs : StageRcs) (hw : Bool) (n : String) :
    Stage.analysis ∉ variantStages rcs hw n := by
  unfold variantStages
  split_ifs <;> simp

theorem sim_mem_variantStages (rcs : StageRcs) (hw : Bool) (n : String) :
    Stage.sim n ∈ variantStages rcs hw n := by
  unfold variantStages
  split_ifs <;> simp

/-- C1: Orchestrator gating: the Synthesis Agent runs for a variant only
when the Simulation Agent returned 0 for it; the Board Agent runs for a
variant only when both Simulation and Synthesis returned 0 for it and the
hardware flag is set; the Analysis Agent runs exactly once per run, after
every target variant has been attempted, and its return code is the
orchestrator's overall result. -/
theorem orchestrator_gating (rcs : StageRcs) (hw : Bool)
    (variants : List String) :
    (∀ v, Stage.synth v ∈ (run_phase1 rcs hw variants).1 → rcs.simRc v = 0) ∧
    (∀ v, Stage.board v ∈ (run_phase1 rcs hw variants).1 →
      rcs.simRc v = 0 ∧ rcs.synthRc v = 0 ∧ hw = true) ∧
    (run_phase1 rcs hw variants).1.count Stage.analysis = 1 ∧
    (run_phase1 rcs hw variants).1.getLast? = some Stage.analysis ∧
    (∀ v ∈ variants, Stage.sim v ∈ (run_phase1 rcs hw variants).1) ∧
    (run_phase1 rcs hw variants).2 = rcs.analysisRc := by
  have hno : Stage.analysis ∉ variants.flatMap (variantStages rcs hw) := by
    simp only [List.mem_flatMap, not_exists, not_and]
    exact fun a _ => analysis_not_in_variantStages rcs hw a
  refine ⟨?_, ?_, ?_, ?_, ?_, rfl⟩
  · intro v hv
    simp only [run_phase1, List.mem_cons, List.mem_append, List.mem_flatMap,
      List.mem_singleton] at hv
    rcases hv with (h | ⟨a, _, hmem⟩) | h
    · exact absurd h (by simp)
    · unfold variantStages at hmem
      split_ifs at hmem with h1 h2 h3 <;> simp at hmem <;> subst hmem <;> omega
    · exact absurd h (by simp)
  · intro v hv
    simp only [run_phase1, List.mem_cons, List.mem_append, List.mem_flatMap,
      List.mem_singleton] at hv
    rcases hv with (h | ⟨a, _, hmem⟩) | h
    · exact absurd h (by simp)
    · unfold variantStages at hmem
      split_ifs at hmem with h1 h2 h3 <;> simp at hmem
      subst hmem
      exact ⟨by omega, by omega, h3⟩
    · exact absurd h (by simp)
  · show ((Stage.designer :: variants.flatMap (variantStages rcs hw)) ++
      [Stage.analysis]).count Stage.analysis = 1
    have h1 : (Stage.designer ::
        variants.flatMap (variantStages rcs hw)).count Stage.analysis = 0 := by
      rw [List.count_eq_zero]
      simp [hno]
    rw [List.count_append, h1]
    rfl
  · show ((Stage.designer :: variants.flatMap (variantStages rcs hw)) ++
      [Stage.analysis]).getLast? = some Stage.analysis
    exact List.getLast?_concat _
  · intro v hv
    simp only [run_phase1, List.mem_cons, List.mem_append, List.mem_flatMap]
    exact Or.inl (Or.inr ⟨v, hv, sim_mem_variantStages rcs hw v⟩)

/-- Witness for C1: the spec's literal scenario — one variant
"baseline8", hardware flag true, a failing simulation stub: the sim stage
is attempted and the overall result is the analysis return code. -/
theorem orchestrator_gating_witness :
    Stage.sim "baseline8" ∈
      (run_phase1 (StageRcs.mk 0 (fun _ => 1) (fun _ => 0) (fun _ => 0) 0)
        true ["baseline8"]).1 ∧
    (run_phase1 (StageRcs.mk 0 (fun _ => 1) (fun _ => 0) (fun _ => 0) 0)
        true ["baseline8"]).2 = 0 := by
  have h := orchestrator_gating
    (StageRcs.mk 0 (fun _ => 1) (fun _ => 0) (fun _ => 0) 0) true ["baseline8"]
  exact ⟨h.2.2.2.2.1 "baseline8" (by simp), h.2.2.2.2.2⟩

theorem synthBuildAll_all_ok (buildOk : String → Bool) :
    ∀ selected : List String, (∀ v ∈ selected, buildOk v = true) →
      synthBuildAll buildOk selected = some selected := by
  intro selected
  induction selected with
  | nil => intro _; rfl
  | cons v rest ih =>
    intro h
    simp [synthBuildAll, h v (List.mem_cons_self v rest),
      ih fun x hx => h x (List.mem_cons_of_mem v hx)]

/-- C2: Synthesis Agent CLI: when every selected variant build was
attempted and succeeded, the aggregate CSV is written with the fixed
17-column header followed by one block of data rows per variant whose
summary file exists; a selected variant with a missing summary
contributes nothing and the invocation still exits 0. -/
theorem synth_aggregate_csv (buildOk : String → Bool)
    (summaries : String → Option (List (List String)))
    (selected : List String)
    (hall : ∀ v ∈ selected, buildOk v = true) :
    synth_main buildOk summaries selected =
      ⟨0, some (aggregateHeader ::
        selected.flatMap fun name =>
          match summaries name with
          | none => []
          | some rows => rows.drop 1)⟩ ∧
    aggregateHeader.length = 17 := by
  constructor
  · unfold synth_main
    rw [synthBuildAll_all_ok buildOk selected hall]
    rfl
  · rfl

/-- Witness for C2: two selected variants, one with a summary file and
one without; the missing summary is skipped and the exit code is 0. -/
theorem synth_aggregate_csv_witness :
    synth_main (fun _ => true)
      (fun n => if n = "a" then some [["hdr"], ["row1"]] else none)
      ["a", "b"] =
      ⟨0, some [aggregateHeader, ["row1"]]⟩ := by
  have h := (synth_aggregate_csv (fun _ => true)
    (fun n => if n = "a" then some [["hdr"], ["row1"]] else none)
    ["a", "b"] (by intro v _; rfl)).1
  rw [h]
  rfl

theorem filelock_eta (l : FileLockSt) (h : l.owned = true) :
    { l with owned := true } = l := by
  cases l
  simp_all

/-- C6: Resource Lock reentrancy and release: with reentrancy enabled an
acquire by the process whose pid the lock file records succeeds in the
very first loop iteration (no stale-removal retry, no poll wait); there
is no depth counter, so after any number of further acquires a single
release deletes the marker file; release is a no-op when not owned; when
owned it deletes the marker only if the file still records the caller's
pid, and tolerates the file having vanished. -/
theorem filelock_reentrant_release (l : FileLockSt) (m : MarkerFile)
    (fs : Option MarkerFile) (n : Nat) :
    (l.reentrant = true → m.pid = l.pid →
      acquireStep l (some m) =
        ({ l with owned := true }, some m, AcqOutcome.acquired)) ∧
    (l.reentrant = true → l.owned = true → m.pid = l.pid →
      lockRelease (acquireIter n l (some m)).1 (acquireIter n l (some m)).2 =
        ({ l with owned := false }, none)) ∧
    (l.owned = false → lockRelease l fs = (l, fs)) ∧
    (l.owned = true → m.pid ≠ l.pid →
      lockRelease l (some m) = ({ l with owned := false }, some m)) ∧
    (l.owned = true → lockRelease l none = ({ l with owned := false }, none)) := by
  refine ⟨?_, ?_, ?_, ?_, ?_⟩
  · intro hre hpid
    simp [acquireStep, hre, hpid]
  · intro hre hown hpid
    have hstep : acquireStep l (some m) = (l, some m, AcqOutcome.acquired) := by
      simp only [acquireStep]
      rw [if_pos ⟨hre, hpid⟩, filelock_eta l hown]
    have hfix : acquireIter n l (some m) = (l, some m) := by
      induction n with
      | zero => rfl
      | succ k ih => simp [acquireIter, hstep, ih]
    rw [hfix]
    simp [lockRelease, hown, hpid]
  · intro hown
    simp [lockRelease, hown]
  · intro hown hpid
    simp [lockRelease, hown, hpid]
  · intro hown
    simp [lockRelease, hown]

/-- Witness for C6: a concrete reentrant handle owning the lock: the
reentrant acquire succeeds immediately and a single release after two
further acquires deletes the marker file. -/
theorem filelock_reentrant_release_witness :
    acquireStep ⟨7, true, 180, true⟩ (some ⟨7, 0⟩) =
      (⟨7, true, 180, true⟩, some ⟨7, 0⟩, AcqOutcome.acquired) ∧
    lockRelease (acquireIter 2 ⟨7, true, 180, true⟩ (some ⟨7, 0⟩)).1
      (acquireIter 2 ⟨7, true, 180, true⟩ (some ⟨7, 0⟩)).2 =
      (⟨7, true, 180, false⟩, none) := by
  have h := filelock_reentrant_release ⟨7, true, 180, true⟩ ⟨7, 0⟩ none 2
  exact ⟨h.1 rfl rfl, h.2.1 rfl rfl rfl⟩

theorem rowViolations_mem (r : SummaryRow) (a b c d : Int)
    (hr : rowResources r = some (a, b, c, d)) :
    (LUT4_TOTAL < a → Violation.lut r.variant a ∈ rowViolations r) ∧
    (DFF_TOTAL < b → Violation.dff r.variant b ∈ rowViolations r) ∧
    (BRAM_4K_TOTAL < c → Violation.bram r.variant c ∈ rowViolations r) ∧
    (DSP_MAC16_TOTAL < d → Violation.dsp r.variant d ∈ rowViolations r) := by
  unfold rowViolations
  rw [hr]
  refine ⟨fun h => ?_, fun h => ?_, fun h => ?_, fun h => ?_⟩ <;>
    simp [h]

/-- C8: Report Generator resource sanity gate: any parseable row
exceeding a device total makes the generator exit 3 with no report file
written; every exceedance of every parseable row is logged (not just the
first); rows whose utilization fields do not parse are skipped and, when
all parseable rows are within the totals, the run exits 0 and writes the
report. -/
theorem report_resource_sanity_gate (rows : List SummaryRow) :
    ((∃ r ∈ rows, ∃ a b c d, rowResources r = some (a, b, c, d) ∧
        (LUT4_TOTAL < a ∨ DFF_TOTAL < b ∨ BRAM_4K_TOTAL < c ∨
         DSP_MAC16_TOTAL < d)) →
      mk_phase1_report_main (some rows) = ⟨3, false⟩) ∧
    (∀ r ∈ rows, ∀ a b c d, rowResources r = some (a, b, c, d) →
      (LUT4_TOTAL < a →
        Violation.lut r.variant a ∈ (sanity_check_resources rows).1) ∧
      (DFF_TOTAL < b →
        Violation.dff r.variant b ∈ (sanity_check_resources rows).1) ∧
      (BRAM_4K_TOTAL < c →
        Violation.bram r.variant c ∈ (sanity_check_resources rows).1) ∧
      (DSP_MAC16_TOTAL < d →
        Violation.dsp r.variant d ∈ (sanity_check_resources rows).1)) ∧
    ((∀ r ∈ rows, ∀ a b c d, rowResources r = some (a, b, c, d) →
        a ≤ LUT4_TOTAL ∧ b ≤ DFF_TOTAL ∧ c ≤ BRAM_4K_TOTAL ∧
        d ≤ DSP_MAC16_TOTAL) →
      mk_phase1_report_main (some rows) = ⟨0, true⟩) := by
  have hmem : ∀ r ∈ rows, ∀ viol, viol ∈ rowViolations r →
      viol ∈ (sanity_check_resources rows).1 := by
    intro r hr viol hviol
    simp only [sanity_check_resources, List.mem_flatMap]
    exact ⟨r, hr, hviol⟩
  refine ⟨?_, ?_, ?_⟩
  · rintro ⟨r, hr, a, b, c, d, hres, hex⟩
    have hv := rowViolations_mem r a b c d hres
    have hne : ¬ (sanity_check_resources rows).1.isEmpty := by
      rcases hex with h | h | h | h
      · exact List.isEmpty_iff.not.mpr
          (List.ne_nil_of_mem (hmem r hr _ (hv.1 h)))
      · exact List.isEmpty_iff.not.mpr
          (List.ne_nil_of_mem (hmem r hr _ (hv.2.1 h)))
      · exact List.isEmpty_iff.not.mpr
          (List.ne_nil_of_mem (hmem r hr _ (hv.2.2.1 h)))
      · exact List.isEmpty_iff.not.mpr
          (List.ne_nil_of_mem (hmem r hr _ (hv.2.2.2 h)))
    simp only [mk_phase1_report_main, sanity_check_resources] at hne ⊢
    rw [if_neg (by simpa using hne)]
  · intro r hr a b c d hres
    have hv := rowViolations_mem r a b c d hres
    exact ⟨fun h => hmem r hr _ (hv.1 h), fun h => hmem r hr _ (hv.2.1 h),
      fun h => hmem r hr _ (hv.2.2.1 h), fun h => hmem r hr _ (hv.2.2.2 h)⟩
  · intro hall
    have hnil : rows.flatMap rowViolations = [] := by
      rw [List.flatMap_eq_nil_iff]
      intro r hr
      unfold rowViolations
      cases hres : rowResources r with
      | none => rfl
      | some t =>
        obtain ⟨a, b, c, d⟩ := t
        obtain ⟨h1, h2, h3, h4⟩ := hall r hr a b c d hres
        simp [not_lt_of_le, h1, h2, h3, h4, Int.not_lt.mpr]
    simp only [mk_phase1_report_main, sanity_check_resources]
    rw [if_pos (by simp [hnil])]

/-- Witness for C8: the spec's literal scenario — a row with a lookup-table
count of 5281 (one over the 5280 total) exits 3 and writes no report. -/
theorem report_resource_sanity_gate_witness :
    mk_phase1_report_main
      (some [⟨"v1", some 5281, some 10, some 0, some 0⟩]) = ⟨3, false⟩ := by
  exact (report_resource_sanity_gate
      [⟨"v1", some 5281, some 10, some 0, some 0⟩]).1
    ⟨_, List.mem_singleton.mpr rfl, 5281, 10, 0, 0, rfl,
      Or.inl (by decide)⟩

/-- C4: Golden model rounding law: with rounding enabled the pre-clamp
average is `(s + 2^(SHIFT-1)) >> SHIFT` for `s ≥ 0` and
`(s − 2^(SHIFT-1)) >> SHIFT` for `s < 0`, so an exact half-way sum rounds
away from zero; with rounding disabled it is the plain arithmetic right
shift `s >> SHIFT`, which is the floor of `s / 2^SHIFT` (toward −∞) and
agrees with truncation toward 0 on non-negative sums. -/
theorem golden_rounding_law (s : Int) (S : Nat) (hS : 1 ≤ S) :
    (0 ≤ s → arith_shift_round s S true = (s + 2 ^ (S - 1)).fdiv (2 ^ S)) ∧
    (s < 0 → arith_shift_round s S true = (s - 2 ^ (S - 1)).fdiv (2 ^ S)) ∧
    arith_shift_round s S false = s.fdiv (2 ^ S) ∧
    2 ^ S * arith_shift_round s S false ≤ s ∧
    s < 2 ^ S * (arith_shift_round s S false + 1) ∧
    (0 ≤ s → arith_shift_round s S false = s.tdiv (2 ^ S)) ∧
    (∀ q : Int, arith_shift_round ((2 * q + 1) * 2 ^ (S - 1)) S true =
      if 0 ≤ q then q + 1 else q) := by
  have hS0 : S ≠ 0 := Nat.one_le_iff_ne_zero.mp hS
  have hpow : (2 : Int) ^ S = 2 ^ (S - 1) * 2 := by
    rw [← pow_succ]
    congr 1
    omega
  have hpos : (0 : Int) < 2 ^ S := by positivity
  have hhalf : (0 : Int) < 2 ^ (S - 1) := by positivity
  have hfalse : arith_shift_round s S false = s.fdiv (2 ^ S) := by
    simp [arith_shift_round, pyShr, hS0]
  refine ⟨?_, ?_, hfalse, ?_, ?_, ?_, ?_⟩
  · intro h
    simp [arith_shift_round, pyShr, hS0, h]
  · intro h
    simp only [arith_shift_round, pyShr, if_neg hS0, if_pos rfl,
      if_neg (not_le.mpr h)]
    rw [← sub_eq_add_neg]
    simp
  · rw [hfalse]
    have := Int.fdiv_add_fmod s (2 ^ S)
    have h2 := Int.fmod_nonneg' s hpos
    omega
  · rw [hfalse]
    have := Int.fdiv_add_fmod s (2 ^ S)
    have h2 := Int.fmod_lt_of_pos s hpos
    have h3 : 2 ^ S * (s.fdiv (2 ^ S) + 1) =
        2 ^ S * s.fdiv (2 ^ S) + 2 ^ S := by ring
    omega
  · intro h
    rw [hfalse, Int.fdiv_eq_tdiv h (le_of_lt hpos)]
  · intro q
    by_cases hq : 0 ≤ q
    · have hs : 0 ≤ (2 * q + 1) * 2 ^ (S - 1) := by positivity
      simp only [arith_shift_round, pyShr, if_neg hS0, if_pos rfl,
        if_pos hs, if_pos hq]
      have he : (2 * q + 1) * 2 ^ (S - 1) + 2 ^ (S - 1) =
          (q + 1) * 2 ^ S := by
        rw [hpow]; ring
      rw [he, Int.mul_fdiv_cancel _ (ne_of_gt hpos)]
      simp
    · have hq' : q < 0 := not_le.mp hq
      have hs : (2 * q + 1) * 2 ^ (S - 1) < 0 := by
        apply mul_neg_of_neg_of_pos _ hhalf
        omega
      simp only [arith_shift_round, pyShr, if_neg hS0, if_pos rfl,
        if_neg (not_le.mpr hs), if_neg hq]
      have he : (2 * q + 1) * 2 ^ (S - 1) + -(2 ^ (S - 1)) =
          q * 2 ^ S := by
        rw [hpow]; ring
      rw [he, Int.mul_fdiv_cancel _ (ne_of_gt hpos)]
      simp

/-- Witness for C4: at `SHIFT = 2` the rounding-enabled path matches the
biased shift on a positive and on a negative sum. -/
theorem golden_rounding_law_witness :
    arith_shift_round 6 2 true = ((6 : Int) + 2 ^ (2 - 1)).fdiv (2 ^ 2) ∧
    arith_shift_round (-6) 2 true = ((-6 : Int) - 2 ^ (2 - 1)).fdiv (2 ^ 2) := by
  exact ⟨(golden_rounding_law 6 2 (by norm_num)).1 (by norm_num),
    (golden_rounding_law (-6) 2 (by norm_num)).2.1 (by norm_num)⟩

theorem validateVariants_shift (pre rest : List YVal) :
    ∀ i : Nat,
    (∀ j (hj : j < pre.length), validate_variant (i + j) (pre.get ⟨j, hj⟩) = none) →
    validateVariants i (pre ++ rest) = validateVariants (i + pre.length) rest := by
  induction pre with
  | nil => intro i _; simp
  | cons v tl ih =>
    intro i h
    have h0 : validate_variant i v = none := by
      have := h 0 (by simp)
      simpa using this
    have hrec := ih (i + 1) fun j hj => by
      have := h (j + 1) (by simpa using Nat.succ_lt_succ hj)
      simpa [Nat.add_assoc, Nat.add_comm 1 j] using this
    calc validateVariants i ((v :: tl) ++ rest)
        = validateVariants (i + 1) (tl ++ rest) := by
          simp [validateVariants, h0]
      _ = validateVariants (i + 1 + tl.length) rest := hrec
      _ = validateVariants (i + (v :: tl).length) rest := by
          congr 1
          simp
          omega

/-- C7: Configuration Loader failure taxonomy: a missing file raises
NotFound; a syntactically malformed document raises a ParseError distinct
from every ValidationError; a well-formed mapping without a top-level
"variants" key, or with an entry missing "taps", raises a ConfigError
whose message names the offending index and field; a valid document
yields the Config holding the variant list. -/
theorem config_loader_failure_taxonomy :
    load_config ReadOutcome.missing = LoadResult.notFound ∧
    (load_config ReadOutcome.yamlError = LoadResult.parseError ∧
      ∀ msg, LoadResult.parseError ≠ LoadResult.configError msg) ∧
    (∀ doc, ylookup "variants" doc = none →
      load_config (ReadOutcome.parsed doc) =
        LoadResult.configError "Missing top-level \"variants\" key") ∧
    (∀ (doc : List (String × YVal)) (pre post : List YVal)
        (kvs : List (String × YVal)) (nm : String),
      ylookup "variants" doc =
        some (YVal.ylist (pre ++ YVal.ymap kvs :: post)) →
      (∀ j (hj : j < pre.length),
        validate_variant j (pre.get ⟨j, hj⟩) = none) →
      ylookup "name" kvs = some (YVal.ystr nm) → pyStrip nm ≠ "" →
      ylookup "taps" kvs = none →
      load_config (ReadOutcome.parsed doc) =
        LoadResult.configError
          s!"variants[{pre.length}].taps must be an integer") ∧
    (∀ doc vs, ylookup "variants" doc = some (YVal.ylist vs) →
      validateVariants 0 vs = none →
      load_config (ReadOutcome.parsed doc) = LoadResult.ok vs) := by
  refine ⟨rfl, ⟨rfl, fun msg h => LoadResult.noConfusion h⟩, ?_, ?_, ?_⟩
  · intro doc h
    simp [load_config, validateConfig, h]
  · intro doc pre post kvs nm hvar hpre hname htrim htaps
    simp only [load_config, validateConfig, hvar]
    rw [validateVariants_shift pre (YVal.ymap kvs :: post) 0 (by simpa using hpre)]
    simp only [Nat.zero_add, validateVariants]
    have hv : validate_variant pre.length (YVal.ymap kvs) =
        some s!"variants[{pre.length}].taps must be an integer" := by
      simp only [validate_variant, hname, htaps]
      simp [htrim]
    rw [hv]
  · intro doc vs hvar hvalid
    simp [load_config, validateConfig, hvar, hvalid]

/-- Witness for C7: a one-entry document whose entry has a name but no
"taps" key produces a ConfigError naming index 0 and the taps field. -/
theorem round_int_to_str_ok (r : Int) (hr : r = 0 ∨ r = 1) :
    round_int_to_str r = Except.ok (if r = 1 then "round" else "truncate") := by
  rcases hr with rfl | rfl <;> simp [round_int_to_str]

theorem sat_int_to_str_ok (s : Int) (hs : s = 0 ∨ s = 1) :
    sat_int_to_str s = Except.ok (if s = 1 then "saturate" else "wrap") := by
  rcases hs with rfl | rfl <;> simp [sat_int_to_str]

theorem extras_eval (kvs : List (String × YVal)) (yo np sd fq : Option YVal)
    (hyo : ylookup "yosys_opts" kvs = yo)
    (hnp : ylookup "nextpnr_opts" kvs = np)
    (hsd : ylookup "seed" kvs = sd)
    (hfq : ylookup "freq" kvs = fq)
    (h1 : ∀ x ∈ yo, isNull x = false) (h2 : ∀ x ∈ np, isNull x = false)
    (h3 : ∀ x ∈ sd, isNull x = false) (h4 : ∀ x ∈ fq, isNull x = false) :
    (["yosys_opts", "nextpnr_opts", "seed", "freq"].flatMap fun k =>
        match ylookup k kvs with
        | some x => if isNull x then [] else [(k, x)]
        | none => []) =
      optKV "yosys_opts" yo ++ optKV "nextpnr_opts" np ++
        optKV "seed" sd ++ optKV "freq" fq := by
  simp only [List.flatMap_cons, List.flatMap_nil, hyo, hnp, hsd, hfq,
    List.append_nil]
  cases yo <;> cases np <;> cases sd <;> cases fq <;>
    simp_all [optKV, Option.mem_def]

theorem convertEntry_mapping (idx : Nat)
    (kvs pkvs : List (String × YVal)) (nm : String) (t p r s : Int)
    (yo np sd fq : Option YVal)
    (hname : ylookup "name" kvs = some (YVal.ystr nm))
    (hn : pyStrip nm ≠ "")
    (hparams : ylookup "params" kvs = some (YVal.ymap pkvs))
    (hT : ylookup "TAPS" pkvs = some (YVal.yint t))
    (hP : ylookup "PIPELINE" pkvs = some (YVal.yint p))
    (hR : ylookup "ROUND" pkvs = some (YVal.yint r))
    (hS : ylookup "SAT" pkvs = some (YVal.yint s))
    (hr : r = 0 ∨ r = 1) (hs : s = 0 ∨ s = 1)
    (hyo : ylookup "yosys_opts" kvs = yo)
    (hnp : ylookup "nextpnr_opts" kvs = np)
    (hsd : ylookup "seed" kvs = sd)
    (hfq : ylookup "freq" kvs = fq)
    (h1 : ∀ x ∈ yo, isNull x = false) (h2 : ∀ x ∈ np, isNull x = false)
    (h3 : ∀ x ∈ sd, isNull x = false) (h4 : ∀ x ∈ fq, isNull x = false) :
    convertEntry idx (YVal.ymap kvs) =
      Except.ok (YVal.ymap
        ([("name", YVal.ystr (pyStrip nm)),
          ("taps", YVal.yint t),
          ("pipeline", YVal.yint (if p ≠ 0 then 1 else 0)),
          ("round", YVal.ystr (if r = 1 then "round" else "truncate")),
          ("sat", YVal.ystr (if s = 1 then "saturate" else "wrap"))] ++
         optKV "yosys_opts" yo ++ optKV "nextpnr_opts" np ++
         optKV "seed" sd ++ optKV "freq" fq)) := by
  have hnest : is_nested_variant (YVal.ymap kvs) = true := by
    simp [is_nested_variant, hparams]
  simp only [convertEntry, hnest, hname, hparams, hT, hP, hR, hS,
    Option.bind_some, pyInt, round_int_to_str_ok r hr, sat_int_to_str_ok s hs]
  simp only [hn, if_true, Bool.not_true, reduceIte, ne_eq,
    not_false_eq_true]
  rw [extras_eval kvs yo np sd fq hyo hnp hsd hfq h1 h2 h3 h4]
  simp [round_int_to_str_ok r hr, sat_int_to_str_ok s hs]
  rfl


theorem round_int_to_str_err (r : Int) (hr : ¬(r = 0 ∨ r = 1)) :
    round_int_to_str r = Except.error "ROUND must be 0 or 1" := by
  have : r ≠ 0 ∧ r ≠ 1 := by tauto
  simp [round_int_to_str, this]

theorem sat_int_to_str_err (s : Int) (hs : ¬(s = 0 ∨ s = 1)) :
    sat_int_to_str s = Except.error "SAT must be 0 or 1" := by
  have : s ≠ 0 ∧ s ≠ 1 := by tauto
  simp [sat_int_to_str, this]

theorem convertEntry_bad_flag (idx : Nat)
    (kvs pkvs : List (String × YVal)) (nm : String) (t p r s : Int)
    (hname : ylookup "name" kvs = some (YVal.ystr nm))
    (hn : pyStrip nm ≠ "")
    (hparams : ylookup "params" kvs = some (YVal.ymap pkvs))
    (hT : ylookup "TAPS" pkvs = some (YVal.yint t))
    (hP : ylookup "PIPELINE" pkvs = some (YVal.yint p))
    (hR : ylookup "ROUND" pkvs = some (YVal.yint r))
    (hS : ylookup "SAT" pkvs = some (YVal.yint s))
    (hbad : ¬(r = 0 ∨ r = 1) ∨ ¬(s = 0 ∨ s = 1)) :
    ∃ msg, convertEntry idx (YVal.ymap kvs) = Except.error msg := by
  have hnest : is_nested_variant (YVal.ymap kvs) = true := by
    simp [is_nested_variant, hparams]
  simp only [convertEntry, hnest, hname, hparams, hT, hP, hR, hS,
    Option.bind_some, pyInt]
  simp only [hn, if_true, Bool.not_true, reduceIte, ne_eq,
    not_false_eq_true]
  by_cases hr : r = 0 ∨ r = 1
  · rcases hbad with hbad | hbad
    · exact absurd hr hbad
    · refine ⟨"SAT must be 0 or 1", ?_⟩
      simp [round_int_to_str_ok r hr, sat_int_to_str_err s hbad]
      rfl
  · refine ⟨"ROUND must be 0 or 1", ?_⟩
    simp [round_int_to_str_err r hr]
    rfl

theorem convertEntries_error (vs : List YVal) : ∀ (i : Nat),
    (∃ j, ∃ hj : j < vs.length, ∃ msg,
      convertEntry (i + j) (vs.get ⟨j, hj⟩) = Except.error msg) →
    ∃ e, convertEntries i vs = Except.error e := by
  induction vs with
  | nil =>
    intro i h
    obtain ⟨j, hj, _⟩ := h
    exact absurd hj (by simp)
  | cons v tl ih =>
    intro i h
    cases hv : convertEntry i v with
    | error msg =>
      refine ⟨msg, ?_⟩
      simp only [convertEntries, hv]
      rfl
    | ok f =>
      obtain ⟨j, hj, msg, hmsg⟩ := h
      cases j with
      | zero =>
        rw [show i + 0 = i from rfl] at hmsg
        simp only [List.get] at hmsg
        rw [hv] at hmsg
        exact absurd hmsg (by simp)
      | succ j' =>
        have hj' : j' < tl.length := by simpa using hj
        obtain ⟨e, he⟩ := ih (i + 1)
          ⟨j', hj', msg, by
            have : i + 1 + j' = i + (j' + 1) := by omega
            rw [this]
            simpa using hmsg⟩
        refine ⟨e, ?_⟩
        simp only [convertEntries, hv, he]
        rfl

/-- C9: Variant Schema Converter mapping: a nested entry
`{name, params: {TAPS, PIPELINE, ROUND, SAT}}` with in-range flags
converts to exactly
`{name, taps, pipeline (coerced to 0/1), round: "round"/"truncate",
sat: "saturate"/"wrap"}` with yosys_opts/nextpnr_opts/seed/freq passed
through verbatim when present; an out-of-range ROUND or SAT is a fatal
validation error (exit 3); a document mixing a nested and a flat entry is
rejected with exit 3. -/
theorem schema_converter_mapping :
    (∀ (idx : Nat) (kvs pkvs : List (String × YVal)) (nm : String)
        (t p r s : Int) (yo np sd fq : Option YVal),
      ylookup "name" kvs = some (YVal.ystr nm) → pyStrip nm ≠ "" →
      ylookup "params" kvs = some (YVal.ymap pkvs) →
      ylookup "TAPS" pkvs = some (YVal.yint t) →
      ylookup "PIPELINE" pkvs = some (YVal.yint p) →
      ylookup "ROUND" pkvs = some (YVal.yint r) →
      ylookup "SAT" pkvs = some (YVal.yint s) →
      (r = 0 ∨ r = 1) → (s = 0 ∨ s = 1) →
      ylookup "yosys_opts" kvs = yo → ylookup "nextpnr_opts" kvs = np →
      ylookup "seed" kvs = sd → ylookup "freq" kvs = fq →
      (∀ x ∈ yo, isNull x = false) → (∀ x ∈ np, isNull x = false) →
      (∀ x ∈ sd, isNull x = false) → (∀ x ∈ fq, isNull x = false) →
      convertEntry idx (YVal.ymap kvs) =
        Except.ok (YVal.ymap
          ([("name", YVal.ystr (pyStrip nm)),
            ("taps", YVal.yint t),
            ("pipeline", YVal.yint (if p ≠ 0 then 1 else 0)),
            ("round", YVal.ystr (if r = 1 then "round" else "truncate")),
            ("sat", YVal.ystr (if s = 1 then "saturate" else "wrap"))] ++
           optKV "yosys_opts" yo ++ optKV "nextpnr_opts" np ++
           optKV "seed" sd ++ optKV "freq" fq))) ∧
    (∀ (idx : Nat) (kvs pkvs : List (String × YVal)) (nm : String)
        (t p r s : Int),
      ylookup "name" kvs = some (YVal.ystr nm) → pyStrip nm ≠ "" →
      ylookup "params" kvs = some (YVal.ymap pkvs) →
      ylookup "TAPS" pkvs = some (YVal.yint t) →
      ylookup "PIPELINE" pkvs = some (YVal.yint p) →
      ylookup "ROUND" pkvs = some (YVal.yint r) →
      ylookup "SAT" pkvs = some (YVal.yint s) →
      (¬(r = 0 ∨ r = 1) ∨ ¬(s = 0 ∨ s = 1)) →
      ∃ msg, convertEntry idx (YVal.ymap kvs) = Except.error msg) ∧
    (∀ (doc : List (String × YVal)) (vs : List YVal) (e : String),
      ylookup "variants" doc = some (YVal.ylist vs) →
      vs.any is_flat_variant = false →
      convertEntries 0 vs = Except.error e →
      convert_main doc = (3, none)) ∧
    (∀ (doc : List (String × YVal)) (vs : List YVal),
      ylookup "variants" doc = some (YVal.ylist vs) →
      vs.any is_nested_variant = true → vs.any is_flat_variant = true →
      convert_main doc = (3, none)) := by
  refine ⟨?_, ?_, ?_, ?_⟩
  · intro idx kvs pkvs nm t p r s yo np sd fq hname hn hparams hT hP hR hS
      hr hs hyo hnp hsd hfq h1 h2 h3 h4
    exact convertEntry_mapping idx kvs pkvs nm t p r s yo np sd fq hname hn
      hparams hT hP hR hS hr hs hyo hnp hsd hfq h1 h2 h3 h4
  · intro idx kvs pkvs nm t p r s hname hn hparams hT hP hR hS hbad
    exact convertEntry_bad_flag idx kvs pkvs nm t p r s hname hn hparams
      hT hP hR hS hbad
  · intro doc vs e hvar hflat herr
    simp [convert_main, hvar, hflat, convert_nested_to_flat, herr]
    rfl
  · intro doc vs hvar hnested hflat
    simp [convert_main, hvar, hnested, hflat]

/-- Witness for C9: the spec's literal example — TAPS 8, PIPELINE 0,
ROUND 1, SAT 1 converts to taps 8, pipeline 0, round "round",
sat "saturate". -/
theorem schema_converter_mapping_witness :
    convertEntry 0 (YVal.ymap
      [("name", YVal.ystr "x"),
       ("params", YVal.ymap
         [("TAPS", YVal.yint 8), ("PIPELINE", YVal.yint 0),
          ("ROUND", YVal.yint 1), ("SAT", YVal.yint 1)])]) =
      Except.ok (YVal.ymap
        [("name", YVal.ystr "x"), ("taps", YVal.yint 8),
         ("pipeline", YVal.yint 0), ("round", YVal.ystr "round"),
         ("sat", YVal.ystr "saturate")]) := by
  have h := schema_converter_mapping.1 0
    [("name", YVal.ystr "x"),
     ("params", YVal.ymap
       [("TAPS", YVal.yint 8), ("PIPELINE", YVal.yint 0),
        ("ROUND", YVal.yint 1), ("SAT", YVal.yint 1)])]
    [("TAPS", YVal.yint 8), ("PIPELINE", YVal.yint 0),
     ("ROUND", YVal.yint 1), ("SAT", YVal.yint 1)]
    "x" 8 0 1 1 none none none none rfl (by decide) rfl rfl rfl rfl rfl
    (Or.inr rfl) (Or.inr rfl) rfl rfl rfl rfl (by simp) (by simp)
    (by simp) (by simp)
  rw [h]
  rfl

theorem config_loader_failure_taxonomy_witness :
    load_config (ReadOutcome.parsed
        [("variants", YVal.ylist [YVal.ymap [("name", YVal.ystr "a")]])]) =
      LoadResult.configError "variants[0].taps must be an integer" := by
  have h := config_loader_failure_taxonomy.2.2.2.1
    [("variants", YVal.ylist [YVal.ymap [("name", YVal.ystr "a")]])]
    [] [] [("name", YVal.ystr "a")] "a" rfl
    (fun j hj => absurd hj (by simp)) rfl (by decide) rfl
  exact h

theorem q15_saturate_range (v : Int) :
    Q15_MIN ≤ q15_saturate v ∧ q15_saturate v ≤ Q15_MAX := by
  unfold q15_saturate Q15_MIN Q15_MAX
  split_ifs <;> omega

theorem q15_wrap_range (v : Int) :
    Q15_MIN ≤ q15_wrap v ∧ q15_wrap v ≤ Q15_MAX := by
  have h1 := Int.emod_nonneg v (by norm_num : (65536 : Int) ≠ 0)
  have h2 := Int.emod_lt_of_pos v (by norm_num : (0 : Int) < 65536)
  simp only [q15_wrap, Q15_MIN, Q15_MAX]
  rw [show v.emod 65536 = v % 65536 from rfl]
  split_ifs <;> omega

theorem firPost_range (s : Bool) (y : Int) :
    Q15_MIN ≤ firPost s y ∧ firPost s y ≤ Q15_MAX := by
  cases s
  · exact q15_wrap_range y
  · exact q15_saturate_range y

theorem firPost_zero (s : Bool) : firPost s 0 = 0 := by
  cases s <;> decide

theorem firGo_spec (taps SHIFT : Nat) (r s : Bool) :
    ∀ (xs w : List Int),
      (firGo taps SHIFT r s w xs).1.length = xs.length ∧
      (firGo taps SHIFT r s w xs).2.length = xs.length ∧
      ∀ y ∈ (firGo taps SHIFT r s w xs).1, Q15_MIN ≤ y ∧ y ≤ Q15_MAX := by
  intro xs
  induction xs with
  | nil => intro w; simp [firGo]
  | cons x rest ih =>
    intro w
    obtain ⟨h1, h2, h3⟩ := ih (firWindowStep taps w x)
    simp only [firGo]
    refine ⟨by simp [h1], by simp [h2], ?_⟩
    intro y hy
    simp only [List.mem_cons] at hy
    rcases hy with rfl | hy
    · split_ifs with hc
      · norm_num [Q15_MIN, Q15_MAX]
      · exact firPost_range s _
    · exact h3 y hy

/-- C10: for every input, every allowed taps and every flag combination,
`fir_mavg_q15` returns output and validity lists of the same length as
the input, and every emitted output lies in `[-32768, 32767]`, in wrap
mode as well as in saturate mode. -/
theorem fir_length_and_range (samples : List Int) (taps : Nat)
    (do_round do_sat : Bool) (outs : List Int) (valids : List Bool)
    (h : fir_mavg_q15 samples taps do_round do_sat = some (outs, valids)) :
    outs.length = samples.length ∧ valids.length = samples.length ∧
    ∀ y ∈ outs, Q15_MIN ≤ y ∧ y ≤ Q15_MAX := by
  unfold fir_mavg_q15 at h
  split_ifs at h with ht
  · injection h with h
    obtain ⟨h1, h2, h3⟩ :=
      firGo_spec taps (bit_length taps - 1) do_round do_sat samples []
    have ho := congrArg Prod.fst h
    have hv := congrArg Prod.snd h
    simp only at ho hv
    rw [← ho, ← hv]
    exact ⟨h1, h2, h3⟩

/-- Witness for C10: a three-sample run with taps 4 applies the theorem
at a concrete input. -/
theorem fir_length_and_range_witness :
    ([0, 0, 0] : List Int).length = ([1, 2, 3] : List Int).length ∧
    ([false, false, false] : List Bool).length =
      ([1, 2, 3] : List Int).length ∧
    ∀ y ∈ ([0, 0, 0] : List Int), Q15_MIN ≤ y ∧ y ≤ Q15_MAX :=
  fir_length_and_range [1, 2, 3] 4 true true [0, 0, 0]
    [false, false, false] rfl

theorem firGo_eq_rawGo (taps SHIFT : Nat) (r s : Bool) :
    ∀ (xs w : List Int),
      firGo taps SHIFT r s w xs =
        ((firRawGo taps SHIFT r w xs).1.map (firPost s),
         (firRawGo taps SHIFT r w xs).2) := by
  intro xs
  induction xs with
  | nil => intro w; simp [firGo, firRawGo]
  | cons x rest ih =>
    intro w
    simp only [firGo, firRawGo, ih (firWindowStep taps w x), List.map_cons]
    by_cases hc : (firWindowStep taps w x).length < taps <;>
      simp [hc, firPost_zero]

/-- C5: Golden model saturation/wrap law: at any index whose pre-clamp
shifted average escapes `[-32768, 32767]`, saturation emits exactly 32767
or −32768 and wrap mode emits the 16-bit two's-complement wrap of the
same pre-clamp value; such windows exist — an all-(−32768) window with
rounding yields pre-clamp −32769, saturating to −32768 and wrapping to
32767. -/
theorem golden_saturation_wrap_law (samples : List Int) (taps : Nat)
    (do_round : Bool) (i : Nat) (avg : Int) (ht : taps ∈ ALLOWED_TAPS)
    (h : (firRawGo taps (bit_length taps - 1) do_round [] samples).1[i]? =
      some avg) :
    (Q15_MAX < avg →
      (fir_mavg_q15 samples taps do_round true).map (fun p => p.1[i]?) =
        some (some Q15_MAX)) ∧
    (avg < Q15_MIN →
      (fir_mavg_q15 samples taps do_round true).map (fun p => p.1[i]?) =
        some (some Q15_MIN)) ∧
    (fir_mavg_q15 samples taps do_round false).map (fun p => p.1[i]?) =
      some (some (q15_wrap avg)) ∧
    (firRawGo 4 2 true [] (List.replicate 4 (-32768))).1[3]? =
      some (-32769) ∧
    (fir_mavg_q15 (List.replicate 4 (-32768)) 4 true true).map
      (fun p => p.1[3]?) = some (some (-32768)) ∧
    (fir_mavg_q15 (List.replicate 4 (-32768)) 4 true false).map
      (fun p => p.1[3]?) = some (some 32767) := by
  have hrun : ∀ s : Bool,
      (fir_mavg_q15 samples taps do_round s).map (fun p => p.1[i]?) =
        some (some (firPost s avg)) := by
    intro s
    rw [fir_mavg_q15, if_pos ht]
    simp only [Option.map_some']
    rw [firGo_eq_rawGo taps (bit_length taps - 1) do_round s samples []]
    simp only [List.getElem?_map, h, Option.map_some']
  refine ⟨?_, ?_, ?_, by rfl, by rfl, by rfl⟩
  · intro hgt
    rw [hrun true]
    have : firPost true avg = Q15_MAX := by
      simp [firPost, q15_saturate, hgt]
    rw [this]
  · intro hlt
    rw [hrun true]
    have : firPost true avg = Q15_MIN := by
      have : ¬ avg > Q15_MAX := by
        simp only [Q15_MAX, Q15_MIN] at *
        omega
      simp [firPost, q15_saturate, this, hlt]
    rw [this]
  · rw [hrun false]
    rfl

/-- Witness for C5: the all-(−32768) window with rounding and taps 4:
its pre-clamp average −32769 saturates to −32768 and wraps to 32767. -/
theorem golden_saturation_wrap_law_witness :
    (fir_mavg_q15 (List.replicate 4 (-32768)) 4 true true).map
      (fun p => p.1[3]?) = some (some Q15_MIN) ∧
    (fir_mavg_q15 (List.replicate 4 (-32768)) 4 true false).map
      (fun p => p.1[3]?) = some (some (q15_wrap (-32769))) := by
  have h := golden_saturation_wrap_law (List.replicate 4 (-32768)) 4 true 3
    (-32769) (by decide) (by rfl)
  exact ⟨h.2.1 (by decide), h.2.2.1⟩

theorem firGo_append (taps SHIFT : Nat) (r s : Bool) :
    ∀ (xs ys w : List Int),
      firGo taps SHIFT r s w (xs ++ ys) =
        ((firGo taps SHIFT r s w xs).1 ++
           (firGo taps SHIFT r s (firWin taps w xs) ys).1,
         (firGo taps SHIFT r s w xs).2 ++
           (firGo taps SHIFT r s (firWin taps w xs) ys).2) := by
  intro xs
  induction xs with
  | nil => intro ys w; simp [firGo, firWin]
  | cons x rest ih =>
    intro ys w
    simp only [List.cons_append, firGo, firWin]
    rw [show rest.append ys = rest ++ ys from rfl,
      ih ys (firWindowStep taps w x)]

theorem arith_shift_round_zero (S : Nat) (hS : 1 ≤ S) (r : Bool) :
    arith_shift_round 0 S r = 0 := by
  have hS0 : S ≠ 0 := Nat.one_le_iff_ne_zero.mp hS
  cases r
  · simp [arith_shift_round, pyShr, hS0, Int.zero_fdiv]
  · simp only [arith_shift_round, pyShr, if_neg hS0, if_pos rfl]
    rw [if_pos le_rfl, zero_add]
    rw [Int.fdiv_eq_ediv _ (by positivity)]
    apply Int.ediv_eq_zero_of_lt (by positivity)
    exact pow_lt_pow_right₀ (by norm_num) (by omega)

theorem firWindowStep_zeros (taps : Nat) :
    firWindowStep taps (List.replicate taps 0) 0 = List.replicate taps 0 := by
  unfold firWindowStep
  rw [show q15_wrap 0 = 0 from rfl]
  rw [show ((0:Int) :: List.replicate taps 0) = List.replicate (taps+1) 0 from rfl]
  rw [if_pos (by simp)]
  rw [List.replicate_succ' taps 0, List.dropLast_concat]

theorem firGo_zeros (taps SHIFT : Nat) (r s : Bool) (hS : 1 ≤ SHIFT) :
    ∀ m : Nat,
      firGo taps SHIFT r s (List.replicate taps 0) (List.replicate m 0) =
        (List.replicate m 0, List.replicate m true) ∧
      firWin taps (List.replicate taps 0) (List.replicate m 0) =
        List.replicate taps 0 := by
  intro m
  induction m with
  | zero => exact ⟨rfl, rfl⟩
  | succ k ih =>
    obtain ⟨ih1, ih2⟩ := ih
    constructor
    · rw [List.replicate_succ]
      simp only [firGo, firWindowStep_zeros, ih1]
      rw [if_neg (by simp)]
      simp [arith_shift_round_zero SHIFT hS r, firPost_zero,
        List.replicate_succ]
    · rw [List.replicate_succ]
      simp only [firWin, firWindowStep_zeros, ih2]

theorem getD_replicate (a d : Int) (k i : Nat) :
    (List.replicate k a).getD i d = if i < k then a else d := by
  split_ifs with h
  · rw [List.getD_eq_getElem _ _ (by simpa using h)]
    simp
  · exact List.getD_eq_default _ _ (by simpa using h)

theorem getD_replicate_bool (a d : Bool) (k i : Nat) :
    (List.replicate k a).getD i d = if i < k then a else d := by
  split_ifs with h
  · rw [List.getD_eq_getElem _ _ (by simpa using h)]
    simp
  · exact List.getD_eq_default _ _ (by simpa using h)

theorem impulse_shape (t S : Nat) (v1 : Int) (hS : 1 ≤ S)
    (hpre : firGo t S true true [] (32767 :: List.replicate t 0) =
      (List.replicate (t-1) 0 ++ [v1, 0],
       List.replicate (t-1) false ++ [true, true]))
    (hwin : firWin t [] (32767 :: List.replicate t 0) =
      List.replicate t 0)
    (n : Nat) (hn : t ≤ n) :
    firGo t S true true [] (32767 :: List.replicate n 0) =
      (List.replicate (t-1) 0 ++ v1 :: 0 :: List.replicate (n-t) 0,
       List.replicate (t-1) false ++
         true :: true :: List.replicate (n-t) true) := by
  have hsplit : ((32767 : Int) :: List.replicate n 0) =
      (32767 :: List.replicate t 0) ++ List.replicate (n-t) 0 := by
    rw [List.cons_append, ← List.replicate_add]
    congr 2
    omega
  rw [hsplit, firGo_append, hpre, hwin,
    (firGo_zeros t S true true hS (n-t)).1]
  simp

theorem impulse_index_facts (t n : Nat) (v1 : Int)
    (outs : List Int) (valids : List Bool)
    (ht : 2 ≤ t) (hn : t ≤ n) (hv1 : 0 ≤ v1)
    (houts : outs =
      List.replicate (t-1) 0 ++ v1 :: 0 :: List.replicate (n-t) 0)
    (hvalids : valids =
      List.replicate (t-1) false ++ true :: true :: List.replicate (n-t) true) :
    (∀ i, i ≤ n → i < t - 1 →
      outs.getD i 1 = 0 ∧ valids.getD i true = false) ∧
    (∀ i, i ≤ n → t - 1 ≤ i → valids.getD i false = true) ∧
    outs.getD (t-1) 0 = v1 ∧
    (∀ i, i ≤ n → t - 1 ≤ i → 0 ≤ outs.getD i 0) ∧
    (∀ i, i < n → t - 1 ≤ i → outs.getD (i+1) 0 ≤ outs.getD i 0) := by
  subst houts hvalids
  have houtD : ∀ i, t - 1 ≤ i →
      (List.replicate (t-1) (0:Int) ++
        v1 :: 0 :: List.replicate (n-t) 0).getD i 0 =
      (if i = t - 1 then v1 else 0) := by
    intro i hige
    rw [List.getD_append_right _ _ _ _ (by simp; omega)]
    rcases Nat.eq_zero_or_eq_succ_pred (i - (List.replicate (t-1) (0:Int)).length)
      with hj | hj
    · rw [hj]
      have : i = t - 1 := by simp at hj; omega
      simp [this]
    · rw [hj]
      have hne : ¬ i = t - 1 := by simp at hj; omega
      rw [if_neg hne]
      show (((0:Int)) :: List.replicate (n-t) 0).getD _ 0 = 0
      rw [show ((0:Int) :: List.replicate (n-t) 0) =
        List.replicate (n-t+1) 0 from rfl, getD_replicate]
      split_ifs <;> rfl
  refine ⟨?_, ?_, ?_, ?_, ?_⟩
  · intro i hin hilt
    constructor
    · rw [List.getD_append _ _ _ _ (by simp; omega), getD_replicate,
        if_pos (by omega)]
    · rw [List.getD_append _ _ _ _ (by simp; omega), getD_replicate_bool,
        if_pos (by omega)]
  · intro i hin hige
    rw [List.getD_append_right _ _ _ _ (by simp; omega)]
    rw [show (true :: true :: List.replicate (n-t) true) =
      List.replicate (n-t+2) true from rfl, getD_replicate_bool,
      if_pos (by simp; omega)]
  · rw [houtD (t-1) le_rfl, if_pos rfl]
  · intro i hin hige
    rw [houtD i hige]
    split_ifs
    · exact hv1
    · exact le_rfl
  · intro i hin hige
    rw [houtD i hige, houtD (i+1) (by omega)]
    rw [if_neg (by omega)]
    split_ifs
    · exact hv1
    · exact le_rfl

set_option maxRecDepth 8000 in
/-- C3: Golden model warm-up and impulse response: for every
taps in {4,8,16,32}, an impulse of amplitude 32767 followed by zeros,
with rounding and saturation, yields output 0 and validity false below
index taps−1, validity true from taps−1 on, a first valid output equal to
round(32767/taps), and subsequent valid outputs non-negative and
non-increasing. -/
theorem golden_impulse_response (taps : Nat) (ht : taps ∈ ALLOWED_TAPS)
    (n : Nat) (outs : List Int) (valids : List Bool)
    (h : fir_mavg_q15 ((32767 : Int) :: List.replicate n 0) taps true true =
      some (outs, valids)) :
    (∀ i, i ≤ n → i < taps - 1 →
      outs.getD i 1 = 0 ∧ valids.getD i true = false) ∧
    (∀ i, i ≤ n → taps - 1 ≤ i → valids.getD i false = true) ∧
    (taps - 1 ≤ n → outs.getD (taps-1) 0 = (roundDiv 32767 taps : Int)) ∧
    (∀ i, i ≤ n → taps - 1 ≤ i → 0 ≤ outs.getD i 0) ∧
    (∀ i, i < n → taps - 1 ≤ i → outs.getD (i+1) 0 ≤ outs.getD i 0) := by
  rw [fir_mavg_q15, if_pos ht] at h
  injection h with h
  have ho : outs = (firGo taps (bit_length taps - 1) true true []
      ((32767 : Int) :: List.replicate n 0)).1 := by rw [h]
  have hv : valids = (firGo taps (bit_length taps - 1) true true []
      ((32767 : Int) :: List.replicate n 0)).2 := by rw [h]
  subst ho hv
  clear h
  have hT : taps = 4 ∨ taps = 8 ∨ taps = 16 ∨ taps = 32 := by
    simpa [ALLOWED_TAPS] using ht
  clear ht
  rcases hT with rfl | rfl | rfl | rfl
  · by_cases hn : 4 ≤ n
    · rw [show bit_length 4 - 1 = 2 from rfl]
      have hsh := impulse_shape 4 2 8192 (by norm_num)
        (by rfl) (by rfl) n hn
      have hfacts := impulse_index_facts 4 n 8192 _ _ (by norm_num) hn
        (by norm_num) (congrArg Prod.fst hsh) (congrArg Prod.snd hsh)
      exact ⟨hfacts.1, hfacts.2.1,
        fun _ => by rw [hfacts.2.2.1]; rfl,
        hfacts.2.2.2.1, hfacts.2.2.2.2⟩
    · push_neg at hn
      interval_cases n <;> decide
  · by_cases hn : 8 ≤ n
    · rw [show bit_length 8 - 1 = 3 from rfl]
      have hsh := impulse_shape 8 3 4096 (by norm_num)
        (by rfl) (by rfl) n hn
      have hfacts := impulse_index_facts 8 n 4096 _ _ (by norm_num) hn
        (by norm_num) (congrArg Prod.fst hsh) (congrArg Prod.snd hsh)
      exact ⟨hfacts.1, hfacts.2.1,
        fun _ => by rw [hfacts.2.2.1]; rfl,
        hfacts.2.2.2.1, hfacts.2.2.2.2⟩
    · push_neg at hn
      interval_cases n <;> decide
  · by_cases hn : 16 ≤ n
    · rw [show bit_length 16 - 1 = 4 from rfl]
      have hsh := impulse_shape 16 4 2048 (by norm_num)
        (by rfl) (by rfl) n hn
      have hfacts := impulse_index_facts 16 n 2048 _ _ (by norm_num) hn
        (by norm_num) (congrArg Prod.fst hsh) (congrArg Prod.snd hsh)
      exact ⟨hfacts.1, hfacts.2.1,
        fun _ => by rw [hfacts.2.2.1]; rfl,
        hfacts.2.2.2.1, hfacts.2.2.2.2⟩
    · push_neg at hn
      interval_cases n <;> decide
  · by_cases hn : 32 ≤ n
    · rw [show bit_length 32 - 1 = 5 from rfl]
      have hsh := impulse_shape 32 5 1024 (by norm_num)
        (by decide) (by decide) n hn
      have hfacts := impulse_index_facts 32 n 1024 _ _ (by norm_num) hn
        (by norm_num) (congrArg Prod.fst hsh) (congrArg Prod.snd hsh)
      exact ⟨hfacts.1, hfacts.2.1,
        fun _ => by rw [hfacts.2.2.1]; rfl,
        hfacts.2.2.2.1, hfacts.2.2.2.2⟩
    · push_neg at hn
      interval_cases n <;> decide


/-- Witness for C3: taps 4, an impulse followed by four zeros — the
first valid output (index 3) is round(32767/4) = 8192 and its validity
flag is true. -/
theorem golden_impulse_response_witness :
    ([0, 0, 0, 8192, 0] : List Int).getD 3 0 =
      ((roundDiv 32767 4 : Nat) : Int) ∧
    ([false, false, false, true, true] : List Bool).getD 3 false = true := by
  have h := golden_impulse_response 4 (by decide) 4
    [0, 0, 0, 8192, 0] [false, false, false, true, true] rfl
  exact ⟨h.2.2.1 (by norm_num), h.2.1 3 (by norm_num) (by norm_num)⟩

end FPGA
